import Mathlib

/-!
# Verification of the GenAI Live Streaming Session Client

A shallow embedding of the live-session client (`GenAILiveClient`): the
connection state machine, the inbound message dispatcher with its audio
demultiplexer, the outbound gateway, and the event/log bus, together with
theorems settling the specification claims about them.

Events are modelled as values of an inductive type; each operation or
callback is a pure function from the client state (status plus session
handle) and its inputs to the successor state, the list of transport calls
issued, and the list of events emitted on the bus, in emission order.
-/

namespace LiveClient

/-- The `inlineData` record of a content part: optional mime type and optional
base64 payload, as in the loosely-typed source shape
`p.inlineData?.mimeType` / `p.inlineData?.data`. -/
structure InlineData where
  mimeType : Option String
  data : Option String
deriving DecidableEq, Repr

/-- A content part: an optional `inlineData` record plus an opaque remainder
(text, function-call echo, ...) that the client never inspects. -/
structure ContentPart where
  inlineData : Option InlineData
  other : String
deriving DecidableEq, Repr

/-- A transcription record: text plus an optional `isFinal` flag
(the source reads `(transcription as any).isFinal ?? false`). -/
structure Transcription where
  text : String
  isFinal : Option Bool
deriving DecidableEq, Repr

/-- A model turn: `serverContent.modelTurn` with its optional parts list
(the source reads `serverContent.modelTurn.parts || []`). -/
structure ModelTurn where
  parts : Option (List ContentPart)
deriving DecidableEq, Repr

/-- The `serverContent` record of independent optional signals. -/
structure ServerContent where
  interrupted : Bool
  inputTranscription : Option Transcription
  outputTranscription : Option Transcription
  modelTurn : Option ModelTurn
  turnComplete : Bool
deriving DecidableEq, Repr

/-- A tool call payload, opaque to the client. -/
structure ToolCall where
  payload : String
deriving DecidableEq, Repr

/-- A tool call cancellation payload, opaque to the client. -/
structure ToolCallCancellation where
  payload : String
deriving DecidableEq, Repr

/-- An inbound protocol message (`LiveServerMessage`). -/
structure LiveServerMessage where
  setupComplete : Bool
  toolCall : Option ToolCall
  toolCallCancellation : Option ToolCallCancellation
  serverContent : Option ServerContent
deriving DecidableEq, Repr

/-- An outbound realtime chunk: `{ mimeType, data }`. -/
structure RealtimeChunk where
  mimeType : String
  data : String
deriving DecidableEq, Repr

/-- A function-response record in a tool response, opaque to the client. -/
structure FunctionResponse where
  payload : String
deriving DecidableEq, Repr

/-- A `LiveClientToolResponse`: an optional list of function responses. -/
structure ToolResponse where
  functionResponses : Option (List FunctionResponse)
deriving DecidableEq, Repr

/-- Payload of a `log` event: the source logs either a string, the whole
inbound message, the raw parts of a `send`, or a tool response record. -/
inductive LogMessage where
  | str (s : String)
  | msg (m : LiveServerMessage)
  | parts (ps : List ContentPart)
  | toolResponse (tr : ToolResponse)
deriving DecidableEq, Repr

/-- The events the client can emit on its bus, with their payloads. -/
inductive Event where
  | audio (data : List Nat)
  | close (reason : String)
  | content (parts : List ContentPart)
  | error (msg : String)
  | interrupted
  | log (type : String) (message : LogMessage)
  | openEv
  | setupcomplete
  | toolcall (tc : ToolCall)
  | toolcallcancellation (tcc : ToolCallCancellation)
  | turncomplete
  | inputTranscription (text : String) (isFinal : Bool)
  | outputTranscription (text : String) (isFinal : Bool)
deriving DecidableEq, Repr

/-- Calls the client makes on the transport session handle. -/
inductive TransportCall where
  | close
  | sendClientContent (turns : List ContentPart) (turnComplete : Bool)
  | sendRealtime (chunk : RealtimeChunk)
  | sendToolResponse (frs : List FunctionResponse)
deriving DecidableEq, Repr

/-- Connection status: `'disconnected' | 'connecting' | 'connected'`. -/
inductive Status where
  | disconnected
  | connecting
  | connected
deriving DecidableEq, Repr

/-- The client's mutable state: the tri-state status and whether the
session handle is non-null (`this.session !== undefined`). -/
structure ClientState where
  status : Status
  session : Bool
deriving DecidableEq, Repr

/-- The freshly constructed client: disconnected, no session handle. -/
def initialState : ClientState := ⟨Status.disconnected, false⟩

/-- Value of a base64 alphabet character, `none` for non-alphabet
characters (padding and whitespace are skipped). -/
def b64val (c : Char) : Option Nat :=
  if 'A' ≤ c ∧ c ≤ 'Z' then some (c.toNat - 65)
  else if 'a' ≤ c ∧ c ≤ 'z' then some (c.toNat - 97 + 26)
  else if '0' ≤ c ∧ c ≤ '9' then some (c.toNat - 48 + 52)
  else if c = '+' then some 62
  else if c = '/' then some 63
  else none

/-- Reassemble 6-bit groups into bytes, dropping the bits of an incomplete
trailing group as base64 decoding does. -/
def b64groups : List Nat → List Nat
  | a :: b :: c :: d :: rest =>
      (a * 4 + b / 16) :: (b % 16 * 16 + c / 4) :: (c % 4 * 64 + d) :: b64groups rest
  | [a, b, c] => [a * 4 + b / 16, b % 16 * 16 + c / 4]
  | [a, b] => [a * 4 + b / 16]
  | _ => []

/-- Modelled from the spec: the source imports `base64ToArrayBuffer` from
`./utils`, which is not among the provided sources; the spec says each audio
part's base64 payload is decoded "to a raw byte buffer". Standard base64
decoding of a string to its byte list. -/
def base64ToArrayBuffer (s : String) : List Nat :=
  b64groups (s.toList.filterMap b64val)

/-- First index at which `sub` occurs in `s`, scanning left to right
(JS `String.prototype.indexOf`, with `none` for the `-1` case). -/
def indexOfAux (sub : List Char) : List Char → Nat → Option Nat
  | [], i => if sub = [] then some i else none
  | c :: rest, i =>
      if sub.isPrefixOf (c :: rest) then some i else indexOfAux sub rest (i + 1)

/-- JS `s.indexOf(sub)` as an `Option Nat`. -/
def strIndexOf (s sub : String) : Option Nat :=
  indexOfAux sub.toList s.toList 0

/-- JS `s.includes(sub)`: substring containment. -/
def strIncludes (s sub : String) : Bool :=
  (strIndexOf s sub).isSome

/-- JS `s.toLowerCase()`. -/
def strToLower (s : String) : String :=
  String.mk (s.toList.map Char.toLower)

/-- JS `s.startsWith(pre)`. -/
def strStartsWith (s pre : String) : Bool :=
  pre.toList.isPrefixOf s.toList

/-- Lodash `difference(xs, ys)`: the elements of `xs` not equal to any
element of `ys`, order and duplicates of `xs` preserved. -/
def difference (xs ys : List ContentPart) : List ContentPart :=
  xs.filter (fun x => ! ys.contains x)

/-- The audio predicate of the demultiplexer:
`p.inlineData?.mimeType?.startsWith('audio/pcm')`. -/
def isAudioPart (p : ContentPart) : Bool :=
  match p.inlineData with
  | some d =>
      match d.mimeType with
      | some mt => strStartsWith mt "audio/pcm"
      | none => false
  | none => false

/-- A part carries a usable audio payload when its `inlineData.data` field
is present and non-empty (the truthiness test `if (b64)` of the source). -/
def hasPayload (p : ContentPart) : Bool :=
  (p.inlineData.bind (fun d => d.data)).getD "" != ""

/-- Body of the `base64s.forEach` loop: a truthy (present, non-empty)
payload is decoded and emits one `audio` event plus one log entry naming the
byte length; a missing or empty payload emits nothing. -/
def audioEmit (ob : Option String) : List Event :=
  match ob with
  | some b64 =>
      if b64 = "" then []
      else
        [Event.audio (base64ToArrayBuffer b64),
         Event.log "server.audio" (LogMessage.str
           ("buffer (" ++ toString (base64ToArrayBuffer b64).length ++ ")"))]
  | none => []

/-- The events of the `serverContent.modelTurn` branch of `onMessage`:
filter out the audio parts, decode and emit each non-empty payload with a
log entry, then emit the remaining parts as one `content` event (with a log
entry carrying the whole message) when they are non-empty. -/
def modelTurnEvents (m : LiveServerMessage) (mt : ModelTurn) : List Event :=
  let parts := mt.parts.getD []
  let audioParts := parts.filter isAudioPart
  let base64s := audioParts.map (fun p => p.inlineData.bind (fun d => d.data))
  let otherParts := difference parts audioParts
  base64s.flatMap audioEmit ++
  (if otherParts.length > 0 then
    [Event.content otherParts, Event.log "server.content" (LogMessage.msg m)]
   else [])

/-- The events of the `serverContent` sub-dispatch of `onMessage`:
`interrupted` short-circuits; otherwise input transcription, output
transcription, model turn and turn-complete are processed in order. -/
def serverContentEvents (m : LiveServerMessage) (sc : ServerContent) : List Event :=
  if sc.interrupted then
    [Event.log "receive.serverContent" (LogMessage.str "interrupted"),
     Event.interrupted]
  else
    (match sc.inputTranscription with
     | some t =>
         [Event.inputTranscription t.text (t.isFinal.getD false),
          Event.log "server.inputTranscription" (LogMessage.str t.text)]
     | none => []) ++
    (match sc.outputTranscription with
     | some t =>
         [Event.outputTranscription t.text (t.isFinal.getD false),
          Event.log "server.outputTranscription" (LogMessage.str t.text)]
     | none => []) ++
    (match sc.modelTurn with
     | some mt => modelTurnEvents m mt
     | none => []) ++
    (if sc.turnComplete then
      [Event.log "server.send" (LogMessage.str "turnComplete"),
       Event.turncomplete]
     else [])

/-- The message dispatcher `onMessage`: classification precedence is
`setupComplete`, then `toolCall`, then `toolCallCancellation`, then
`serverContent`; each of the first three branches is terminal. -/
def onMessage (m : LiveServerMessage) : List Event :=
  if m.setupComplete then [Event.setupcomplete]
  else
    match m.toolCall with
    | some tc => [Event.log "server.toolCall" (LogMessage.msg m), Event.toolcall tc]
    | none =>
        match m.toolCallCancellation with
        | some tcc =>
            [Event.log "receive.toolCallCancellation" (LogMessage.msg m),
             Event.toolcallcancellation tcc]
        | none =>
            match m.serverContent with
            | some sc => serverContentEvents m sc
            | none => []

/-- Result of one client operation or transport callback: the successor
client state, the transport calls issued, and the events emitted, each in
order. -/
structure OpResult where
  state : ClientState
  calls : List TransportCall
  events : List Event
deriving DecidableEq, Repr

/-- Events of `onError`: one log entry
(`server.` prefixed by the error event's type) then the `error` event. -/
def onErrorEvents (etype emsg : String) : List Event :=
  [Event.log ("server." ++ etype)
     (LogMessage.str ("Could not connect to GenAI Live: " ++ emsg)),
   Event.error emsg]

/-- The `onerror` transport callback: status is forced to disconnected (the
session handle field is not touched), one log entry and the `error` event. -/
def onErrorStep (s : ClientState) (etype emsg : String) : OpResult :=
  ⟨⟨Status.disconnected, s.session⟩, [], onErrorEvents etype emsg⟩

/-- The `onopen` transport callback: status becomes connected (the session
handle field is not touched) and the `open` event fires. -/
def onOpenStep (s : ClientState) : OpResult :=
  ⟨⟨Status.connected, s.session⟩, [], [Event.openEv]⟩

/-- Close-reason extraction of `onClose`: when the lowercased reason
contains `error` and the marker `ERROR]` occurs at a strictly positive
index, keep the text after the marker plus one further character. -/
def extractCloseReason (reason : String) : String :=
  if strIncludes (strToLower reason) "error" then
    let prelude := "ERROR]"
    match strIndexOf reason prelude with
    | some i =>
        if i > 0 then String.mk (reason.toList.drop (i + prelude.length + 1))
        else reason
    | none => reason
  else reason

/-- The `onclose` transport callback: status is forced to disconnected (the
session handle field is not touched), one log entry with the extracted
reason, then the `close` event carrying the raw close event. -/
def onCloseStep (s : ClientState) (etype reason : String) : OpResult :=
  let r := extractCloseReason reason
  ⟨⟨Status.disconnected, s.session⟩, [],
   [Event.log ("server." ++ etype)
      (LogMessage.str
        ("disconnected " ++ (if r ≠ "" then "with reason: " ++ r else ""))),
    Event.close reason]⟩

/-- The operation `connect` when the transport open succeeds: a no-op returning `false`
while connecting or connected; otherwise the handle is stored, status
becomes connected and `true` is returned. -/
def connectSuccess (s : ClientState) : OpResult × Bool :=
  if s.status = Status.connected ∨ s.status = Status.connecting then
    (⟨s, [], []⟩, false)
  else
    (⟨⟨Status.connected, true⟩, [], []⟩, true)

/-- The operation `connect` when the transport open rejects: a no-op returning `false`
while connecting or connected; otherwise status reverts to disconnected,
the handle is cleared, and a synthetic error event is routed through the
`onError` path before `false` is returned. -/
def connectFailure (s : ClientState) (emsg : String) : OpResult × Bool :=
  if s.status = Status.connected ∨ s.status = Status.connecting then
    (⟨s, [], []⟩, false)
  else
    (⟨⟨Status.disconnected, false⟩, [], onErrorEvents "error" emsg⟩, false)

/-- The operation `disconnect()`: closes the session when a handle is present, clears the
handle, sets status to disconnected, logs, and returns `true`. -/
def disconnectStep (s : ClientState) : OpResult × Bool :=
  (⟨⟨Status.disconnected, false⟩,
    if s.session then [TransportCall.close] else [],
    [Event.log "client.close" (LogMessage.str "Disconnected")]⟩, true)

/-- The operation `send(parts, turnComplete)`: gated on `status === 'connected'` and a
non-null session; forwards the parts as client content and logs them. -/
def sendStep (s : ClientState) (parts : List ContentPart) (turnComplete : Bool) :
    OpResult :=
  if s.status ≠ Status.connected ∨ ¬ s.session then
    ⟨s, [], [Event.error "Client is not connected"]⟩
  else
    ⟨s, [TransportCall.sendClientContent parts turnComplete],
     [Event.log "client.send" (LogMessage.parts parts)]⟩

/-- The classification scan of `sendRealtimeInput`: fold over the chunks
accumulating a has-audio and a has-video flag, stopping early once both
are set. -/
def scanChunks : List RealtimeChunk → Bool → Bool → Bool × Bool
  | [], hasAudio, hasVideo => (hasAudio, hasVideo)
  | ch :: rest, hasAudio, hasVideo =>
      let hasAudio := hasAudio || strIncludes ch.mimeType "audio"
      let hasVideo := hasVideo || strIncludes ch.mimeType "image"
      if hasAudio && hasVideo then (hasAudio, hasVideo)
      else scanChunks rest hasAudio hasVideo

/-- The logged classification of a chunk batch:
`audio + video`, `audio`, `video` or `unknown`. -/
def classifyChunks (chunks : List RealtimeChunk) : String :=
  let p := scanChunks chunks false false
  if p.1 && p.2 then "audio + video"
  else if p.1 then "audio"
  else if p.2 then "video"
  else "unknown"

/-- The operation `sendRealtimeInput(chunks)`: gated like `send`; one transport send per
chunk in input order, then one log entry with the batch classification. -/
def sendRealtimeInputStep (s : ClientState) (chunks : List RealtimeChunk) :
    OpResult :=
  if s.status ≠ Status.connected ∨ ¬ s.session then
    ⟨s, [], [Event.error "Client is not connected"]⟩
  else
    ⟨s, chunks.map TransportCall.sendRealtime,
     [Event.log "client.realtimeInput" (LogMessage.str (classifyChunks chunks))]⟩

/-- The operation `sendToolResponse(toolResponse)`: gated like `send`; forwards the
function responses only when present and non-empty, always logs. -/
def sendToolResponseStep (s : ClientState) (tr : ToolResponse) : OpResult :=
  if s.status ≠ Status.connected ∨ ¬ s.session then
    ⟨s, [], [Event.error "Client is not connected"]⟩
  else
    ⟨s,
     (match tr.functionResponses with
      | some frs =>
          if frs.length ≠ 0 then [TransportCall.sendToolResponse frs] else []
      | none => []),
     [Event.log "client.toolResponse" (LogMessage.toolResponse tr)]⟩

/-- The `onmessage` transport callback: dispatch only, no state change. -/
def onMessageStep (s : ClientState) (m : LiveServerMessage) : OpResult :=
  ⟨s, [], onMessage m⟩

/-- One client operation or transport callback, with its inputs; the
environment (caller and transport) chooses the sequence. -/
inductive ClientOp where
  | connectOk
  | connectFail (emsg : String)
  | disconnect
  | send (parts : List ContentPart) (turnComplete : Bool)
  | sendRealtime (chunks : List RealtimeChunk)
  | sendToolResp (tr : ToolResponse)
  | cbOpen
  | cbMessage (m : LiveServerMessage)
  | cbError (etype emsg : String)
  | cbClose (etype reason : String)
deriving DecidableEq, Repr

/-- The step function of the client: one operation applied to a state. -/
def step (s : ClientState) : ClientOp → OpResult
  | ClientOp.connectOk => (connectSuccess s).1
  | ClientOp.connectFail e => (connectFailure s e).1
  | ClientOp.disconnect => (disconnectStep s).1
  | ClientOp.send ps tc => sendStep s ps tc
  | ClientOp.sendRealtime cs => sendRealtimeInputStep s cs
  | ClientOp.sendToolResp tr => sendToolResponseStep s tr
  | ClientOp.cbOpen => onOpenStep s
  | ClientOp.cbMessage m => onMessageStep s m
  | ClientOp.cbError t e => onErrorStep s t e
  | ClientOp.cbClose t r => onCloseStep s t r

/-- Run a sequence of operations from a state, keeping the final state. -/
def runOps (s : ClientState) (ops : List ClientOp) : ClientState :=
  ops.foldl (fun st op => (step st op).state) s

/-- A state is reachable when some operation sequence drives the freshly
constructed client to it. -/
def Reachable (s : ClientState) : Prop :=
  ∃ ops : List ClientOp, runOps initialState ops = s

/-- Number of events in a list satisfying a predicate. -/
def countP (p : Event → Bool) (es : List Event) : Nat :=
  (es.filter p).length

/-- Recognizer for `log` events. -/
def isLogEvent : Event → Bool
  | Event.log _ _ => true
  | _ => false

/-- Recognizer for `audio` events. -/
def isAudioEvent : Event → Bool
  | Event.audio _ => true
  | _ => false

/-- Recognizer for `content` events. -/
def isContentEvent : Event → Bool
  | Event.content _ => true
  | _ => false

/-- Recognizer for `interrupted` events. -/
def isInterruptedEvent : Event → Bool
  | Event.interrupted => true
  | _ => false

/-- Recognizer for `error` events. -/
def isErrorEvent : Event → Bool
  | Event.error _ => true
  | _ => false

/-- Recognizer for `inputTranscription` events. -/
def isInputTranscriptionEvent : Event → Bool
  | Event.inputTranscription _ _ => true
  | _ => false

/-- Recognizer for `outputTranscription` events. -/
def isOutputTranscriptionEvent : Event → Bool
  | Event.outputTranscription _ _ => true
  | _ => false

/-- Recognizer for `turncomplete` events. -/
def isTurncompleteEvent : Event → Bool
  | Event.turncomplete => true
  | _ => false

theorem countP_append (p : Event → Bool) (a b : List Event) :
    countP p (a ++ b) = countP p a + countP p b := by
  simp [countP, List.filter_append]

theorem countP_nil (p : Event → Bool) : countP p [] = 0 := rfl

theorem countP_cons (p : Event → Bool) (e : Event) (es : List Event) :
    countP p (e :: es) = (if p e then 1 else 0) + countP p es := by
  by_cases h : p e
  · simp [countP, List.filter_cons, h]
    omega
  · simp [countP, List.filter_cons, h]

/-- Lodash `difference` against the filtered audio parts is the stable
partition's other half: a part is kept exactly when it is not audio. -/
theorem difference_filter (xs : List ContentPart) :
    difference xs (xs.filter isAudioPart) = xs.filter (fun p => ! isAudioPart p) := by
  unfold difference
  apply List.filter_congr
  intro x hx
  have hc : (xs.filter isAudioPart).contains x = isAudioPart x := by
    cases h : isAudioPart x
    · simp [List.contains, List.elem_eq_mem, List.mem_filter, h]
    · simp [List.contains, List.elem_eq_mem, List.mem_filter]
      exact ⟨hx, h⟩
  rw [hc]

theorem filter_flatMap_audioEmit (p : Event → Bool)
    (hA : ∀ d, p (Event.audio d) = false)
    (hL : ∀ t msg, p (Event.log t msg) = false) :
    ∀ bs : List (Option String), (bs.flatMap audioEmit).filter p = [] := by
  intro bs
  induction bs with
  | nil => rfl
  | cons ob rest ih =>
      rw [List.flatMap_cons, List.filter_append, ih]
      cases ob with
      | none => simp [audioEmit]
      | some s =>
          by_cases hs : s = ""
          · simp [audioEmit, hs]
          · simp [audioEmit, hs, hA, hL]

theorem countAudio_flatMap_audioEmit :
    ∀ bs : List (Option String),
      countP isAudioEvent (bs.flatMap audioEmit) =
        (bs.filter (fun ob => ob.getD "" != "")).length := by
  intro bs
  induction bs with
  | nil => rfl
  | cons ob rest ih =>
      rw [List.flatMap_cons]
      simp only [countP, List.filter_append, List.length_append] at ih ⊢
      rw [ih]
      cases ob with
      | none => simp [audioEmit]
      | some s =>
          by_cases hs : s = ""
          · simp [audioEmit, hs]
          · simp [audioEmit, hs, isAudioEvent]
            omega

theorem countLog_flatMap_audioEmit :
    ∀ bs : List (Option String),
      countP isLogEvent (bs.flatMap audioEmit) =
        countP isAudioEvent (bs.flatMap audioEmit) := by
  intro bs
  induction bs with
  | nil => rfl
  | cons ob rest ih =>
      rw [List.flatMap_cons]
      simp only [countP, List.filter_append, List.length_append] at ih ⊢
      rw [ih]
      cases ob with
      | none => rfl
      | some s =>
          by_cases hs : s = ""
          · simp [audioEmit, hs]
          · simp [audioEmit, hs, isAudioEvent, isLogEvent]

/-- The model-turn branch emits only `audio`, `log` and `content` events:
any recognizer refusing those three filters it to nothing. -/
theorem filter_modelTurnEvents (p : Event → Bool)
    (hA : ∀ d, p (Event.audio d) = false)
    (hL : ∀ t msg, p (Event.log t msg) = false)
    (hC : ∀ ps, p (Event.content ps) = false)
    (m : LiveServerMessage) (mt : ModelTurn) :
    (modelTurnEvents m mt).filter p = [] := by
  simp only [modelTurnEvents]
  rw [List.filter_append, filter_flatMap_audioEmit p hA hL]
  by_cases h :
      (difference (mt.parts.getD []) ((mt.parts.getD []).filter isAudioPart)).length > 0
  · simp [h, hC, hL]
  · simp [h]

/-- In the model-turn branch, log entries pair one-to-one with the `audio`
and `content` events it emits. -/
theorem countLog_modelTurnEvents (m : LiveServerMessage) (mt : ModelTurn) :
    countP isLogEvent (modelTurnEvents m mt) =
      countP isAudioEvent (modelTurnEvents m mt) +
      countP isContentEvent (modelTurnEvents m mt) := by
  simp only [modelTurnEvents, countP_append]
  have hc := countLog_flatMap_audioEmit
    (((mt.parts.getD []).filter isAudioPart).map (fun p => p.inlineData.bind (fun d => d.data)))
  have h0 : countP isContentEvent
      ((((mt.parts.getD []).filter isAudioPart).map
        (fun p => p.inlineData.bind (fun d => d.data))).flatMap audioEmit) = 0 := by
    have := filter_flatMap_audioEmit isContentEvent (fun _ => rfl) (fun _ _ => rfl)
      (((mt.parts.getD []).filter isAudioPart).map (fun p => p.inlineData.bind (fun d => d.data)))
    simp [countP, this]
  rw [hc, h0]
  by_cases h :
      (difference (mt.parts.getD []) ((mt.parts.getD []).filter isAudioPart)).length > 0
  · simp [h, countP, isLogEvent, isAudioEvent, isContentEvent]
  · simp [h, countP]

/-- A successful `indexOf` search starting at offset `k` lands at or after
`k`, and the needle is a prefix of the haystack dropped at the hit. -/
theorem indexOfAux_spec (sub : List Char) :
    ∀ (l : List Char) (k j : Nat), indexOfAux sub l k = some j →
      k ≤ j ∧ sub.isPrefixOf (l.drop (j - k)) = true := by
  intro l
  induction l with
  | nil =>
      intro k j h
      unfold indexOfAux at h
      split at h
      · next hs =>
          cases h
          subst hs
          exact ⟨Nat.le_refl _, by simp [List.isPrefixOf]⟩
      · cases h
  | cons c rest ih =>
      intro k j h
      unfold indexOfAux at h
      split at h
      · next hp =>
          cases h
          simpa [Nat.sub_self] using hp
      · next hp =>
          obtain ⟨hle, hpre⟩ := ih (k + 1) j h
          refine ⟨Nat.le_of_succ_le hle, ?_⟩
          have hjk : j - k = (j - (k + 1)) + 1 := by omega
          rw [hjk, List.drop_succ_cons]
          exact hpre

/-- If the needle occurs somewhere in the haystack, `indexOf` finds a hit. -/
theorem indexOfAux_isSome (sub : List Char) :
    ∀ (l : List Char) (j k : Nat), sub.isPrefixOf (l.drop j) = true →
      (indexOfAux sub l k).isSome = true := by
  intro l
  induction l with
  | nil =>
      intro j k h
      rw [List.drop_nil] at h
      unfold indexOfAux
      cases sub with
      | nil => simp
      | cons a as => simp [List.isPrefixOf] at h
  | cons c rest ih =>
      intro j k h
      unfold indexOfAux
      split
      · simp
      · next hp =>
          cases j with
          | zero =>
              rw [List.drop_zero] at h
              exact absurd h hp
          | succ j2 =>
              rw [List.drop_succ_cons] at h
              exact ih j2 (k + 1) h

/-- A close reason containing the `ERROR]` marker also passes the
lowercased `includes('error')` pre-check of the extraction. -/
theorem strIndexOf_some_lower (reason : String) (i : Nat)
    (h : strIndexOf reason "ERROR]" = some i) :
    strIncludes (strToLower reason) "error" = true := by
  obtain ⟨-, hpre⟩ := indexOfAux_spec "ERROR]".toList reason.toList 0 i h
  have h1 : "ERROR]".toList <+: reason.toList.drop (i - 0) :=
    ( List.isPrefixOf_iff_prefix).1 hpre
  have h2 : "ERROR]".toList.map Char.toLower <+:
      (reason.toList.drop (i - 0)).map Char.toLower := h1.map _
  have h3 : "error".toList <+: "ERROR]".toList.map Char.toLower := by decide
  have h4 : "error".toList <+: (reason.toList.map Char.toLower).drop (i - 0) := by
    rw [← List.map_drop]
    exact h3.trans h2
  have h5 : "error".toList.isPrefixOf
      ((strToLower reason).toList.drop (i - 0)) = true := by
    rw [ List.isPrefixOf_iff_prefix]
    exact h4
  unfold strIncludes strIndexOf
  exact indexOfAux_isSome _ _ (i - 0) 0 h5

/-- C1, counterexample: after a successful `connect` the transport close
callback drives status to disconnected but leaves the session handle set,
so a reachable state has `status == disconnected` together with a non-null
handle, contradicting the claimed invariant. -/
theorem C1_counterexample :
    (runOps initialState [ClientOp.connectOk, ClientOp.cbClose "close" ""]).status =
      Status.disconnected ∧
    (runOps initialState [ClientOp.connectOk, ClientOp.cbClose "close" ""]).session =
      true := by
  constructor <;> rfl

/-- C1, amended: `disconnect()` and a failed `connect()` clear the handle
and set status to disconnected, but the transport close and error callbacks
only force status to disconnected and leave the handle untouched, so a
state with status disconnected and a non-null handle is reachable. -/
theorem C1_amended (s : ClientState) (b : Bool) (etype emsg reason : String) :
    (disconnectStep s).1.state = ⟨Status.disconnected, false⟩ ∧
    (connectFailure ⟨Status.disconnected, b⟩ emsg).1.state =
      ⟨Status.disconnected, false⟩ ∧
    (onCloseStep s etype reason).state.status = Status.disconnected ∧
    (onCloseStep s etype reason).state.session = s.session ∧
    (onErrorStep s etype emsg).state.status = Status.disconnected ∧
    (onErrorStep s etype emsg).state.session = s.session ∧
    Reachable ⟨Status.disconnected, true⟩ := by
  refine ⟨rfl, by simp [connectFailure], rfl, rfl, rfl, rfl,
    ⟨[ClientOp.connectOk, ClientOp.cbClose "close" ""], by decide⟩⟩

/-- C2: an inbound server-content message with `interrupted` set emits
exactly one log entry and one `interrupted` event and no transcription,
audio, content or turn-complete event, whatever other server-content
signals are present. -/
theorem C2_interrupted_exclusive (it ot : Option Transcription)
    (mtn : Option ModelTurn) (tcb : Bool) :
    onMessage ⟨false, none, none, some ⟨true, it, ot, mtn, tcb⟩⟩ =
      [Event.log "receive.serverContent" (LogMessage.str "interrupted"),
       Event.interrupted] ∧
    countP isLogEvent
      (onMessage ⟨false, none, none, some ⟨true, it, ot, mtn, tcb⟩⟩) = 1 ∧
    countP isInterruptedEvent
      (onMessage ⟨false, none, none, some ⟨true, it, ot, mtn, tcb⟩⟩) = 1 ∧
    countP isInputTranscriptionEvent
      (onMessage ⟨false, none, none, some ⟨true, it, ot, mtn, tcb⟩⟩) = 0 ∧
    countP isOutputTranscriptionEvent
      (onMessage ⟨false, none, none, some ⟨true, it, ot, mtn, tcb⟩⟩) = 0 ∧
    countP isAudioEvent
      (onMessage ⟨false, none, none, some ⟨true, it, ot, mtn, tcb⟩⟩) = 0 ∧
    countP isContentEvent
      (onMessage ⟨false, none, none, some ⟨true, it, ot, mtn, tcb⟩⟩) = 0 ∧
    countP isTurncompleteEvent
      (onMessage ⟨false, none, none, some ⟨true, it, ot, mtn, tcb⟩⟩) = 0 :=
  ⟨rfl, rfl, rfl, rfl, rfl, rfl, rfl, rfl⟩

/-- C5: in each state whose status is not connected (disconnected or
connecting, either with or without a stale handle), `send`,
`sendRealtimeInput` and `sendToolResponse` make no transport call, emit
exactly one `error` event and nothing else, and leave the state unchanged. -/
theorem C5_not_connected_gating (b : Bool) (parts : List ContentPart)
    (tcf : Bool) (chunks : List RealtimeChunk) (tr : ToolResponse) :
    sendStep ⟨Status.disconnected, b⟩ parts tcf =
      ⟨⟨Status.disconnected, b⟩, [], [Event.error "Client is not connected"]⟩ ∧
    sendStep ⟨Status.connecting, b⟩ parts tcf =
      ⟨⟨Status.connecting, b⟩, [], [Event.error "Client is not connected"]⟩ ∧
    sendRealtimeInputStep ⟨Status.disconnected, b⟩ chunks =
      ⟨⟨Status.disconnected, b⟩, [], [Event.error "Client is not connected"]⟩ ∧
    sendRealtimeInputStep ⟨Status.connecting, b⟩ chunks =
      ⟨⟨Status.connecting, b⟩, [], [Event.error "Client is not connected"]⟩ ∧
    sendToolResponseStep ⟨Status.disconnected, b⟩ tr =
      ⟨⟨Status.disconnected, b⟩, [], [Event.error "Client is not connected"]⟩ ∧
    sendToolResponseStep ⟨Status.connecting, b⟩ tr =
      ⟨⟨Status.connecting, b⟩, [], [Event.error "Client is not connected"]⟩ := by
  refine ⟨?_, ?_, ?_, ?_, ?_, ?_⟩ <;>
    simp [sendStep, sendRealtimeInputStep, sendToolResponseStep]

/-- C10: an audio-mime part with an absent or empty `inlineData.data` is
skipped, so the model-turn branch emits exactly one `audio` event per
audio-mime part with a non-empty payload (and, being a total function,
never fails on a missing payload). -/
theorem C10_missing_payload_skipped (m : LiveServerMessage) (mt : ModelTurn) :
    countP isAudioEvent (modelTurnEvents m mt) =
      ((mt.parts.getD []).filter (fun p => isAudioPart p && hasPayload p)).length := by
  have key : ∀ (l : List ContentPart),
      ((l.map (fun p => p.inlineData.bind (fun d => d.data))).filter
        (fun ob => ob.getD "" != "")).length = (l.filter hasPayload).length := by
    intro l
    induction l with
    | nil => rfl
    | cons p rest ih =>
        simp only [List.map_cons, List.filter_cons]
        cases h : hasPayload p with
        | true =>
            rw [show ((p.inlineData.bind (fun d => d.data)).getD "" != "") = true from h]
            simp [ih]
        | false =>
            rw [show ((p.inlineData.bind (fun d => d.data)).getD "" != "") = false from h]
            simp [ih]
  have hsplit : modelTurnEvents m mt =
      ((((mt.parts.getD []).filter isAudioPart).map
        (fun p => p.inlineData.bind (fun d => d.data))).flatMap audioEmit) ++
      (if (difference (mt.parts.getD []) ((mt.parts.getD []).filter isAudioPart)).length > 0
       then [Event.content (difference (mt.parts.getD [])
               ((mt.parts.getD []).filter isAudioPart)),
             Event.log "server.content" (LogMessage.msg m)]
       else []) := rfl
  rw [hsplit, countP_append, countAudio_flatMap_audioEmit, key]
  have hif : countP isAudioEvent
      (if (difference (mt.parts.getD []) ((mt.parts.getD []).filter isAudioPart)).length > 0
       then [Event.content (difference (mt.parts.getD [])
               ((mt.parts.getD []).filter isAudioPart)),
             Event.log "server.content" (LogMessage.msg m)]
       else []) = 0 := by
    by_cases h :
        (difference (mt.parts.getD []) ((mt.parts.getD []).filter isAudioPart)).length > 0 <;>
      simp [h, countP, isAudioEvent]
  rw [hif, List.filter_filter]
  rw [show List.filter (fun a => hasPayload a && isAudioPart a) (mt.parts.getD []) =
      List.filter (fun p => isAudioPart p && hasPayload p) (mt.parts.getD []) from
    List.filter_congr (fun x _ => Bool.and_comm (hasPayload x) (isAudioPart x))]
  omega

/-- C3: a server-content message carrying an input transcription together
with a model turn of one audio/pcm part and one non-audio part (in either
order, no interruption) emits the `inputTranscription` event, then the
`audio` event with the decoded buffer, then the `content` event holding
only the non-audio part, each followed by its log entry. -/
theorem C3_transcription_then_audio_then_content (t : Transcription)
    (pa pt : ContentPart) (mty d : String)
    (hpa : pa.inlineData = some ⟨some mty, some d⟩)
    (hmty : strStartsWith mty "audio/pcm" = true)
    (hd : d ≠ "")
    (hpt : isAudioPart pt = false)
    (ps : List ContentPart) (hps : ps = [pa, pt] ∨ ps = [pt, pa]) :
    onMessage ⟨false, none, none, some ⟨false, some t, none, some ⟨some ps⟩, false⟩⟩ =
      [Event.inputTranscription t.text (t.isFinal.getD false),
       Event.log "server.inputTranscription" (LogMessage.str t.text),
       Event.audio (base64ToArrayBuffer d),
       Event.log "server.audio" (LogMessage.str
         ("buffer (" ++ toString (base64ToArrayBuffer d).length ++ ")")),
       Event.content [pt],
       Event.log "server.content" (LogMessage.msg
         ⟨false, none, none, some ⟨false, some t, none, some ⟨some ps⟩, false⟩⟩)] := by
  have hA : isAudioPart pa = true := by simp [isAudioPart, hpa, hmty]
  rcases hps with h | h <;> subst h <;>
  · simp only [onMessage, serverContentEvents, modelTurnEvents]
    rw [difference_filter]
    simp [List.filter_cons, hA, hpt, hpa, audioEmit, hd]

/-- C3 witness: the theorem applied at a concrete transcription, a concrete
audio/pcm part and a concrete text part. -/
theorem C3_witness :
    onMessage ⟨false, none, none, some ⟨false, some ⟨"hello", none⟩, none,
        some ⟨some [⟨some ⟨some "audio/pcm;rate=24000", some "AAAA"⟩, ""⟩,
                    ⟨none, "a text part"⟩]⟩, false⟩⟩ =
      [Event.inputTranscription "hello" false,
       Event.log "server.inputTranscription" (LogMessage.str "hello"),
       Event.audio (base64ToArrayBuffer "AAAA"),
       Event.log "server.audio" (LogMessage.str
         ("buffer (" ++ toString (base64ToArrayBuffer "AAAA").length ++ ")")),
       Event.content [⟨none, "a text part"⟩],
       Event.log "server.content" (LogMessage.msg
         ⟨false, none, none, some ⟨false, some ⟨"hello", none⟩, none,
           some ⟨some [⟨some ⟨some "audio/pcm;rate=24000", some "AAAA"⟩, ""⟩,
                       ⟨none, "a text part"⟩]⟩, false⟩⟩)] :=
  C3_transcription_then_audio_then_content ⟨"hello", none⟩
    ⟨some ⟨some "audio/pcm;rate=24000", some "AAAA"⟩, ""⟩ ⟨none, "a text part"⟩
    "audio/pcm;rate=24000" "AAAA" rfl (by decide) (by decide) (by decide)
    _ (Or.inl rfl)

/-- C4: a model turn with parts `[audioA, text1, audioB, text2]` emits two
`audio` events with audioA's then audioB's decoded buffer and one `content`
event carrying `[text1, text2]` in order; a model turn whose parts are all
audio emits no `content` event. -/
theorem C4_demux_stable_partition (m : LiveServerMessage)
    (a1 t1 a2 t2 : ContentPart) (mty1 d1 mty2 d2 : String)
    (ha1 : a1.inlineData = some ⟨some mty1, some d1⟩)
    (hm1 : strStartsWith mty1 "audio/pcm" = true) (hd1 : d1 ≠ "")
    (ha2 : a2.inlineData = some ⟨some mty2, some d2⟩)
    (hm2 : strStartsWith mty2 "audio/pcm" = true) (hd2 : d2 ≠ "")
    (ht1 : isAudioPart t1 = false) (ht2 : isAudioPart t2 = false) :
    modelTurnEvents m ⟨some [a1, t1, a2, t2]⟩ =
      [Event.audio (base64ToArrayBuffer d1),
       Event.log "server.audio" (LogMessage.str
         ("buffer (" ++ toString (base64ToArrayBuffer d1).length ++ ")")),
       Event.audio (base64ToArrayBuffer d2),
       Event.log "server.audio" (LogMessage.str
         ("buffer (" ++ toString (base64ToArrayBuffer d2).length ++ ")")),
       Event.content [t1, t2],
       Event.log "server.content" (LogMessage.msg m)] ∧
    (∀ ps : List ContentPart, (∀ p ∈ ps, isAudioPart p = true) →
       countP isContentEvent (modelTurnEvents m ⟨some ps⟩) = 0) := by
  constructor
  · have hA1 : isAudioPart a1 = true := by simp [isAudioPart, ha1, hm1]
    have hA2 : isAudioPart a2 = true := by simp [isAudioPart, ha2, hm2]
    simp only [modelTurnEvents]
    rw [difference_filter]
    simp [List.filter_cons, hA1, hA2, ht1, ht2, ha1, ha2, audioEmit, hd1, hd2]
  · intro ps hall
    have h1 : ps.filter (fun p => ! isAudioPart p) = [] := by
      rw [List.filter_eq_nil_iff]
      intro a ha
      simp [hall a ha]
    simp only [modelTurnEvents, Option.getD_some]
    rw [difference_filter, h1]
    have h2 := filter_flatMap_audioEmit isContentEvent (fun _ => rfl) (fun _ _ => rfl)
      ((ps.filter isAudioPart).map (fun p => p.inlineData.bind (fun d => d.data)))
    simp [countP, h2]

/-- C4 witness: the theorem applied at concrete parts, with the all-audio
half instantiated at a list of two concrete audio parts. -/
theorem C4_witness :
    modelTurnEvents ⟨false, none, none, none⟩
        ⟨some [⟨some ⟨some "audio/pcm", some "AAAA"⟩, ""⟩, ⟨none, "t1"⟩,
               ⟨some ⟨some "audio/pcm", some "/w=="⟩, ""⟩, ⟨none, "t2"⟩]⟩ =
      [Event.audio (base64ToArrayBuffer "AAAA"),
       Event.log "server.audio" (LogMessage.str
         ("buffer (" ++ toString (base64ToArrayBuffer "AAAA").length ++ ")")),
       Event.audio (base64ToArrayBuffer "/w=="),
       Event.log "server.audio" (LogMessage.str
         ("buffer (" ++ toString (base64ToArrayBuffer "/w==").length ++ ")")),
       Event.content [⟨none, "t1"⟩, ⟨none, "t2"⟩],
       Event.log "server.content" (LogMessage.msg ⟨false, none, none, none⟩)] ∧
    countP isContentEvent (modelTurnEvents ⟨false, none, none, none⟩
      ⟨some [⟨some ⟨some "audio/pcm", some "AAAA"⟩, ""⟩,
             ⟨some ⟨some "audio/pcm", some ""⟩, ""⟩]⟩) = 0 :=
  ⟨(C4_demux_stable_partition ⟨false, none, none, none⟩
      ⟨some ⟨some "audio/pcm", some "AAAA"⟩, ""⟩ ⟨none, "t1"⟩
      ⟨some ⟨some "audio/pcm", some "/w=="⟩, ""⟩ ⟨none, "t2"⟩
      "audio/pcm" "AAAA" "audio/pcm" "/w==" rfl (by decide) (by decide)
      rfl (by decide) (by decide) (by decide) (by decide)).1,
   (C4_demux_stable_partition ⟨false, none, none, none⟩
      ⟨some ⟨some "audio/pcm", some "AAAA"⟩, ""⟩ ⟨none, "t1"⟩
      ⟨some ⟨some "audio/pcm", some "/w=="⟩, ""⟩ ⟨none, "t2"⟩
      "audio/pcm" "AAAA" "audio/pcm" "/w==" rfl (by decide) (by decide)
      rfl (by decide) (by decide) (by decide) (by decide)).2
     [⟨some ⟨some "audio/pcm", some "AAAA"⟩, ""⟩,
      ⟨some ⟨some "audio/pcm", some ""⟩, ""⟩] (by decide)⟩

/-- C7: from a connected state, `sendRealtimeInput` issues exactly one
transport send per chunk in input order and then logs exactly one
classification among audio, video, audio + video and unknown; the empty
batch sends nothing and logs unknown, and a batch of one audio-mime and one
image-mime chunk (either order) issues exactly two sends and logs
audio + video. -/
theorem C7_realtime_one_send_per_chunk (chunks : List RealtimeChunk) :
    (sendRealtimeInputStep ⟨Status.connected, true⟩ chunks).calls =
      chunks.map TransportCall.sendRealtime ∧
    (sendRealtimeInputStep ⟨Status.connected, true⟩ chunks).events =
      [Event.log "client.realtimeInput" (LogMessage.str (classifyChunks chunks))] ∧
    (classifyChunks chunks = "audio" ∨ classifyChunks chunks = "video" ∨
     classifyChunks chunks = "audio + video" ∨ classifyChunks chunks = "unknown") ∧
    (sendRealtimeInputStep ⟨Status.connected, true⟩ ([] : List RealtimeChunk)).calls
      = [] ∧
    classifyChunks [] = "unknown" ∧
    (∀ a b : RealtimeChunk,
       strIncludes a.mimeType "audio" = true →
       strIncludes b.mimeType "image" = true →
       (sendRealtimeInputStep ⟨Status.connected, true⟩ [a, b]).calls =
         [TransportCall.sendRealtime a, TransportCall.sendRealtime b] ∧
       classifyChunks [a, b] = "audio + video" ∧
       classifyChunks [b, a] = "audio + video") := by
  refine ⟨by simp [sendRealtimeInputStep], by simp [sendRealtimeInputStep], ?_,
    rfl, rfl, ?_⟩
  · rcases h : scanChunks chunks false false with ⟨ha, hv⟩
    cases ha <;> cases hv <;> simp [classifyChunks, h]
  · intro a b haud himg
    refine ⟨by simp [sendRealtimeInputStep], ?_, ?_⟩
    · have hs : scanChunks [a, b] false false = (true, true) := by
        cases h2 : strIncludes a.mimeType "image" <;>
          simp [scanChunks, haud, himg, h2]
      simp [classifyChunks, hs]
    · have hs : scanChunks [b, a] false false = (true, true) := by
        cases h2 : strIncludes b.mimeType "audio" <;>
          simp [scanChunks, haud, himg, h2]
      simp [classifyChunks, hs]

/-- C7 witness: the theorem applied at the concrete audio + image batch. -/
theorem C7_witness :
    (sendRealtimeInputStep ⟨Status.connected, true⟩
       [⟨"audio/pcm", "x"⟩, ⟨"image/jpeg", "y"⟩]).calls =
      [TransportCall.sendRealtime ⟨"audio/pcm", "x"⟩,
       TransportCall.sendRealtime ⟨"image/jpeg", "y"⟩] ∧
    classifyChunks [⟨"audio/pcm", "x"⟩, ⟨"image/jpeg", "y"⟩] = "audio + video" :=
  ⟨((C7_realtime_one_send_per_chunk
       [⟨"audio/pcm", "x"⟩, ⟨"image/jpeg", "y"⟩]).2.2.2.2.2
      ⟨"audio/pcm", "x"⟩ ⟨"image/jpeg", "y"⟩ (by decide) (by decide)).1,
   ((C7_realtime_one_send_per_chunk
       [⟨"audio/pcm", "x"⟩, ⟨"image/jpeg", "y"⟩]).2.2.2.2.2
      ⟨"audio/pcm", "x"⟩ ⟨"image/jpeg", "y"⟩ (by decide) (by decide)).2.1⟩

/-- C9: a transcription record without an `isFinal` field is emitted with
`isFinal = false`, for the input and the output transcription alike. -/
theorem C9_isFinal_defaults_false (txt txt2 : String)
    (it ot : Option Transcription) (mtn : Option ModelTurn) (tcb : Bool) :
    (onMessage ⟨false, none, none,
        some ⟨false, some ⟨txt, none⟩, ot, mtn, tcb⟩⟩).filter
      isInputTranscriptionEvent = [Event.inputTranscription txt false] ∧
    (onMessage ⟨false, none, none,
        some ⟨false, it, some ⟨txt2, none⟩, mtn, tcb⟩⟩).filter
      isOutputTranscriptionEvent = [Event.outputTranscription txt2 false] := by
  have hmtI : ∀ (m : LiveServerMessage) (mt : ModelTurn),
      (modelTurnEvents m mt).filter isInputTranscriptionEvent = [] :=
    fun m mt => filter_modelTurnEvents isInputTranscriptionEvent
      (fun _ => rfl) (fun _ _ => rfl) (fun _ => rfl) m mt
  have hmtO : ∀ (m : LiveServerMessage) (mt : ModelTurn),
      (modelTurnEvents m mt).filter isOutputTranscriptionEvent = [] :=
    fun m mt => filter_modelTurnEvents isOutputTranscriptionEvent
      (fun _ => rfl) (fun _ _ => rfl) (fun _ => rfl) m mt
  constructor <;>
  · cases it <;> cases ot <;> cases mtn <;> cases tcb <;>
      simp [onMessage, serverContentEvents, List.filter_append, hmtI, hmtO,
        isInputTranscriptionEvent, isOutputTranscriptionEvent]

/-- C8, counterexample: the close reason `"ERROR] boom"` contains the
diagnostic marker, yet the extraction leaves it verbatim instead of
producing the text after the marker with one delimiter skipped (`"boom"`),
because the source only extracts when the marker index is strictly
positive. -/
theorem C8_counterexample :
    strIncludes "ERROR] boom" "ERROR]" = true ∧
    extractCloseReason "ERROR] boom" = "ERROR] boom" ∧
    extractCloseReason "ERROR] boom" ≠ "boom" := by
  refine ⟨by decide, by decide, by decide⟩

/-- C8, amended: when the close reason contains the marker `ERROR]` at a
strictly positive index, the logged human-readable reason is exactly the
text following the marker with one delimiter character skipped; when the
marker is absent, or occurs at index 0, the raw reason is used verbatim.
The close log entry carries the extracted reason and the `close` event the
raw one. -/
theorem C8_close_reason_extraction (s : ClientState) (etype reason : String) :
    (∀ i : Nat, strIndexOf reason "ERROR]" = some i → 0 < i →
       extractCloseReason reason =
         String.mk (reason.toList.drop (i + "ERROR]".length + 1))) ∧
    (strIndexOf reason "ERROR]" = none → extractCloseReason reason = reason) ∧
    (strIndexOf reason "ERROR]" = some 0 → extractCloseReason reason = reason) ∧
    (onCloseStep s etype reason).events =
      [Event.log ("server." ++ etype)
         (LogMessage.str ("disconnected " ++
           (if extractCloseReason reason ≠ "" then
             "with reason: " ++ extractCloseReason reason else ""))),
       Event.close reason] := by
  refine ⟨?_, ?_, ?_, rfl⟩
  · intro i hidx hpos
    have hlow := strIndexOf_some_lower reason i hidx
    simp only [extractCloseReason, hlow, hidx]
    simp [hpos, String.mk]
  · intro hidx
    simp only [extractCloseReason, hidx]
    split <;> rfl
  · intro hidx
    simp only [extractCloseReason, hidx]
    split <;> simp

/-- C8 witness: the theorem applied at the reason `"xERROR] boom"`, whose
marker sits at index 1, extracting `"boom"`. -/
theorem C8_witness :
    extractCloseReason "xERROR] boom" =
      String.mk ("xERROR] boom".toList.drop (1 + "ERROR]".length + 1)) ∧
    extractCloseReason "no marker here" = "no marker here" :=
  ⟨(C8_close_reason_extraction ⟨Status.connected, true⟩ "close" "xERROR] boom").1
     1 (by decide) (by decide),
   (C8_close_reason_extraction ⟨Status.connected, true⟩ "close" "no marker here").2.1
     (by decide)⟩

/-- C6, counterexample: a `setupComplete` message is classified (its
`setupcomplete` event fires) yet emits no log entry at all, refuting "every
classified inbound signal produces exactly one log entry". -/
theorem C6_counterexample :
    onMessage ⟨true, none, none, none⟩ = [Event.setupcomplete] ∧
    countP isLogEvent (onMessage ⟨true, none, none, none⟩) = 0 :=
  ⟨rfl, rfl⟩

/-- C6, amended: every classified inbound signal except `setupComplete`
produces exactly one log entry per signal instance (`toolCall`,
`toolCallCancellation`, `interrupted`, each present transcription, each
emitted audio buffer, the emitted content record, `turnComplete`), while
`setupComplete` produces none; `disconnect`, accepted outbound operations,
a failed `connect` and the transport error and close callbacks produce
exactly one log entry each, while a successful `connect`, the open
callback and a gated (not-connected) outbound operation produce none. -/
theorem C6_one_log_per_signal :
    (∀ (tc : Option ToolCall) (tcc : Option ToolCallCancellation)
       (sct : Option ServerContent),
       countP isLogEvent (onMessage ⟨true, tc, tcc, sct⟩) = 0) ∧
    (∀ (tc : ToolCall) (tcc : Option ToolCallCancellation)
       (sct : Option ServerContent),
       countP isLogEvent (onMessage ⟨false, some tc, tcc, sct⟩) = 1) ∧
    (∀ (tcc : ToolCallCancellation) (sct : Option ServerContent),
       countP isLogEvent (onMessage ⟨false, none, some tcc, sct⟩) = 1) ∧
    (∀ (it ot : Option Transcription) (mtn : Option ModelTurn) (tcb : Bool),
       countP isLogEvent
         (onMessage ⟨false, none, none, some ⟨true, it, ot, mtn, tcb⟩⟩) = 1) ∧
    (∀ (it ot : Option Transcription) (tcb : Bool),
       countP isLogEvent
         (onMessage ⟨false, none, none, some ⟨false, it, ot, none, tcb⟩⟩) =
       (if it.isSome then 1 else 0) + (if ot.isSome then 1 else 0) +
       (if tcb then 1 else 0)) ∧
    (∀ (it ot : Option Transcription) (mt : ModelTurn) (tcb : Bool),
       countP isLogEvent
         (onMessage ⟨false, none, none, some ⟨false, it, ot, some mt, tcb⟩⟩) =
       (if it.isSome then 1 else 0) + (if ot.isSome then 1 else 0) +
       (countP isAudioEvent (modelTurnEvents
          ⟨false, none, none, some ⟨false, it, ot, some mt, tcb⟩⟩ mt) +
        countP isContentEvent (modelTurnEvents
          ⟨false, none, none, some ⟨false, it, ot, some mt, tcb⟩⟩ mt)) +
       (if tcb then 1 else 0)) ∧
    (∀ s : ClientState, countP isLogEvent (disconnectStep s).1.events = 1) ∧
    (∀ (ps : List ContentPart) (tcf : Bool),
       countP isLogEvent (sendStep ⟨Status.connected, true⟩ ps tcf).events = 1) ∧
    (∀ cs : List RealtimeChunk,
       countP isLogEvent
         (sendRealtimeInputStep ⟨Status.connected, true⟩ cs).events = 1) ∧
    (∀ tr : ToolResponse,
       countP isLogEvent
         (sendToolResponseStep ⟨Status.connected, true⟩ tr).events = 1) ∧
    (∀ (s : ClientState) (etype emsg : String),
       countP isLogEvent (onErrorStep s etype emsg).events = 1) ∧
    (∀ (s : ClientState) (etype reason : String),
       countP isLogEvent (onCloseStep s etype reason).events = 1) ∧
    (∀ s : ClientState, countP isLogEvent (onOpenStep s).events = 0) ∧
    (∀ (b : Bool) (emsg : String),
       countP isLogEvent (connectFailure ⟨Status.disconnected, b⟩ emsg).1.events = 1) ∧
    (∀ s : ClientState, countP isLogEvent (connectSuccess s).1.events = 0) ∧
    (∀ (b : Bool) (ps : List ContentPart) (tcf : Bool),
       countP isLogEvent (sendStep ⟨Status.disconnected, b⟩ ps tcf).events = 0) := by
  refine ⟨fun tc tcc sct => rfl, fun tc tcc sct => rfl, fun tcc sct => rfl,
    fun it ot mtn tcb => rfl, ?_, ?_, fun s => rfl, ?_, ?_, ?_,
    fun s etype emsg => rfl, fun s etype reason => rfl, fun s => rfl, ?_, ?_, ?_⟩
  · intro it ot tcb
    cases it <;> cases ot <;> cases tcb <;> rfl
  · intro it ot mt tcb
    cases it <;> cases ot <;> cases tcb <;>
      · simp only [onMessage, serverContentEvents]
        simp [countP_append, countP_cons, countP_nil, countLog_modelTurnEvents,
          isLogEvent]
        try omega
  · intro ps tcf
    simp [sendStep, countP, isLogEvent]
  · intro cs
    simp [sendRealtimeInputStep, countP, isLogEvent]
  · intro tr
    simp [sendToolResponseStep, countP, isLogEvent]
  · intro b emsg
    simp [connectFailure, onErrorEvents, countP, isLogEvent]
  · intro s
    unfold connectSuccess
    split <;> rfl
  · intro b ps tcf
    simp [sendStep, countP, isLogEvent]

end LiveClient
